import Mathlib

/-!
Verification of the memory-engine-diagnostics allocator family.

This file shallowly embeds the C++ sources under src/core into Lean:

* size_t values are modelled as Nat; wherever the C++ arithmetic can
  genuinely wrap (the bit-mask in align_size, the decrements in
  record_deallocation), the embedding computes modulo 2^64 explicitly.
* raw pointers are modelled as natural-number addresses; each
  fixed-buffer allocator carries the base address of its backing region
  where the source uses it, or pure offsets where it does not.
* intrusive linked lists threaded through the backing memory (pool free
  list, free-list allocator block list) are modelled as Lean lists of
  the node addresses/sizes, in linked order.
* headers written into backing memory are modelled as association lists
  from header address to header contents; a lookup miss corresponds to
  reading memory no header was written to, which is undefined behaviour
  in the C++ source and is modelled as a no-op.
* wall-clock timing (Timer, the avg_*_time_ns rolling means) is real
  time and is not modelled; the remaining seven size_t counters of
  AllocationStats are embedded exactly.
* IEEE doubles in Statistics are modelled as exact rationals; the one
  irrational operation (std::sqrt producing std_dev) is exposed through
  Real.sqrt over the exactly-computed variance.
-/

set_option maxRecDepth 8000

/-- 2^64, the modulus of size_t arithmetic. -/
def U64 : Nat := 2 ^ 64

/-- size_t subtraction: a - b computed modulo 2^64 (wraps below zero). -/
def sub64 (a b : Nat) : Nat := (a + (U64 - b % U64)) % U64

/-- base_allocator.hpp, BaseAllocator::align_size:
`(size + alignment - 1) & ~(alignment - 1)` in size_t arithmetic.
The two operands of the bitwise and are computed modulo 2^64 exactly as
the C++ does: `~(alignment - 1)` equals `0 - alignment` mod 2^64. -/
def align_size (size alignment : Nat) : Nat :=
  (sub64 ((size + alignment) % U64) 1) &&& (sub64 0 (alignment % U64))

/-- base_allocator.hpp, BaseAllocator::is_power_of_two:
`alignment > 0 && (alignment & (alignment - 1)) == 0`. -/
def is_power_of_two (alignment : Nat) : Bool :=
  decide (0 < alignment) && (alignment &&& (alignment - 1) == 0)

/-! ## BaseAllocator shared bookkeeping (base_allocator.hpp)

AllocationStats is embedded with its seven size_t counters; the two
floating-point rolling time averages are wall-clock measurements and are
not modelled.  AllocationInfo keeps all fields of the source struct; the
source never assigns `timestamp`, so it keeps its initializer 0. -/

structure AllocationStats where
  total_allocations : Nat := 0
  total_deallocations : Nat := 0
  current_allocations : Nat := 0
  total_bytes_allocated : Nat := 0
  current_bytes_used : Nat := 0
  peak_bytes_used : Nat := 0
  fragmentation_bytes : Nat := 0
deriving DecidableEq, Repr

structure AllocationInfo where
  address : Nat
  size : Nat
  alignment : Nat
  timestamp : Nat
  is_active : Bool
deriving DecidableEq, Repr

/-- base_allocator.hpp, BaseAllocator::record_allocation (counter and
history part; the avg_allocation_time_ns update consumes the timer value
and is not modelled).  Returns the updated stats and history. -/
def record_allocation (st : AllocationStats) (hist : List AllocationInfo)
    (ptr size alignment : Nat) : AllocationStats × List AllocationInfo :=
  let cb := (st.current_bytes_used + size) % U64
  ({ st with
      total_allocations := (st.total_allocations + 1) % U64
      current_allocations := (st.current_allocations + 1) % U64
      total_bytes_allocated := (st.total_bytes_allocated + size) % U64
      current_bytes_used := cb
      peak_bytes_used := if st.peak_bytes_used < cb then cb else st.peak_bytes_used },
   hist.concat ⟨ptr, size, alignment, 0, true⟩)

/-- base_allocator.hpp, BaseAllocator::record_deallocation (counter part).
The decrements are size_t decrements and wrap below zero. -/
def record_deallocation (st : AllocationStats) (size : Nat) : AllocationStats :=
  { st with
      total_deallocations := (st.total_deallocations + 1) % U64
      current_allocations := sub64 st.current_allocations 1
      current_bytes_used := sub64 st.current_bytes_used size }

/-! ## StandardAllocator (standard_allocator.hpp)

The tracking map `m_allocations : unordered_map<void*, pair<size_t,size_t>>`
is modelled as an association list from address to (size, alignment).
The system allocation primitive `operator new(..., nothrow)` is external;
its result is passed to std_allocate as an oracle argument `sys`
(none / 0 model an allocation failure). -/

structure StandardAllocator where
  m_allocations : List (Nat × Nat × Nat)
  m_stats : AllocationStats
  m_allocation_history : List AllocationInfo
deriving DecidableEq, Repr

def std_init : StandardAllocator := ⟨[], {}, []⟩

/-- standard_allocator.hpp, StandardAllocator::allocate. -/
def std_allocate (σ : StandardAllocator) (size alignment : Nat)
    (sys : Option Nat) : Option Nat × StandardAllocator :=
  if size = 0 then (none, σ)
  else
    let al := if is_power_of_two alignment then alignment else 16
    match sys with
    | none => (none, σ)
    | some p =>
      if p = 0 then (none, σ)
      else
        let (st, h) := record_allocation σ.m_stats σ.m_allocation_history p size al
        (some p,
         { σ with
            m_allocations := (p, size, al) :: σ.m_allocations.eraseP (fun e => e.1 == p)
            m_stats := st
            m_allocation_history := h })

/-- standard_allocator.hpp, StandardAllocator::deallocate. -/
def std_deallocate (σ : StandardAllocator) (p : Nat) : StandardAllocator :=
  if p = 0 then σ
  else
    match σ.m_allocations.lookup p with
    | none => σ
    | some (size, _) =>
      { σ with
          m_allocations := σ.m_allocations.eraseP (fun e => e.1 == p)
          m_stats := record_deallocation σ.m_stats size }

/-- standard_allocator.hpp, StandardAllocator::reset: releases every
tracked allocation to the system, then clears the map, the stats and
the history. -/
def std_reset (σ : StandardAllocator) : StandardAllocator :=
  { σ with m_allocations := [], m_stats := {}, m_allocation_history := [] }

/-- standard_allocator.hpp, StandardAllocator::owns: membership in the
tracking map. -/
def std_owns (σ : StandardAllocator) (p : Nat) : Bool :=
  (σ.m_allocations.lookup p).isSome

/-- standard_allocator.hpp, StandardAllocator::available: SIZE_MAX. -/
def std_available (_σ : StandardAllocator) : Nat := U64 - 1

/-! ## PoolAllocator (pool_allocator.hpp)

The intrusive free list threaded through the free blocks is modelled as
the list of free block addresses in linked order (head first).  `base`
is the address of the backing region returned by aligned_alloc; `mem_ok`
records whether that backing allocation succeeded. -/

structure PoolAllocator where
  m_total_size : Nat
  m_block_size : Nat
  m_block_count : Nat
  m_alignment : Nat
  base : Nat
  mem_ok : Bool
  m_free_list : List Nat
  m_allocated_blocks : Nat
  m_stats : AllocationStats
  m_allocation_history : List AllocationInfo
deriving DecidableEq, Repr

/-- pool_allocator.hpp, PoolAllocator::initialize_free_list: builds the
list from the last block down to block 0, so the resulting linked order
is block 0, block 1, ..., block count−1. -/
def initialize_free_list (base bs count : Nat) : List Nat :=
  (List.range count).map (fun i => base + i * bs)

/-- pool_allocator.hpp, PoolAllocator constructor.
block_size is aligned up to the alignment; total_size = block_size · count. -/
def pool_init (block_size block_count alignment base : Nat) (mem_ok : Bool) :
    PoolAllocator :=
  let bs := align_size block_size alignment
  { m_total_size := bs * block_count
    m_block_size := bs
    m_block_count := block_count
    m_alignment := alignment
    base := base
    mem_ok := mem_ok
    m_free_list := if mem_ok then initialize_free_list base bs block_count else []
    m_allocated_blocks := 0
    m_stats := {}
    m_allocation_history := [] }

/-- pool_allocator.hpp, PoolAllocator::allocate: the alignment argument
is ignored; pops the head of the free list.  Note the source has no
special case for size = 0. -/
def pool_allocate (σ : PoolAllocator) (size _alignment : Nat) :
    Option Nat × PoolAllocator :=
  if ¬ σ.mem_ok ∨ σ.m_free_list = [] ∨ σ.m_block_size < size then (none, σ)
  else
    match σ.m_free_list with
    | [] => (none, σ)
    | b :: rest =>
      let (st, h) := record_allocation σ.m_stats σ.m_allocation_history b
        σ.m_block_size σ.m_alignment
      (some b,
       { σ with
          m_free_list := rest
          m_allocated_blocks := (σ.m_allocated_blocks + 1) % U64
          m_stats := st
          m_allocation_history := h })

/-- pool_allocator.hpp, PoolAllocator::owns: address within the backing
region. -/
def pool_owns (σ : PoolAllocator) (p : Nat) : Bool :=
  σ.mem_ok && decide (p ≠ 0) && decide (σ.base ≤ p) && decide (p < σ.base + σ.m_total_size)

/-- pool_allocator.hpp, PoolAllocator::deallocate: pushes the block onto
the free list head; no validation beyond the ownership range check. -/
def pool_deallocate (σ : PoolAllocator) (p : Nat) : PoolAllocator :=
  if p = 0 ∨ ¬ pool_owns σ p then σ
  else
    { σ with
        m_free_list := p :: σ.m_free_list
        m_allocated_blocks := sub64 σ.m_allocated_blocks 1
        m_stats := record_deallocation σ.m_stats σ.m_block_size }

/-- pool_allocator.hpp, PoolAllocator::reset. -/
def pool_reset (σ : PoolAllocator) : PoolAllocator :=
  { σ with
      m_free_list :=
        if σ.mem_ok then initialize_free_list σ.base σ.m_block_size σ.m_block_count
        else σ.m_free_list
      m_allocated_blocks := 0
      m_stats := {}
      m_allocation_history := [] }

/-- pool_allocator.hpp, PoolAllocator::free_blocks =
block_count − allocated_blocks (size_t subtraction). -/
def pool_free_blocks (σ : PoolAllocator) : Nat :=
  sub64 σ.m_block_count σ.m_allocated_blocks

/-- pool_allocator.hpp, PoolAllocator::available = free_blocks · block_size. -/
def pool_available (σ : PoolAllocator) : Nat :=
  (pool_free_blocks σ * σ.m_block_size) % U64

/-- pool_allocator.hpp, PoolAllocator::get_allocation_grid. -/
def get_allocation_grid (σ : PoolAllocator) : List Bool :=
  σ.m_free_list.foldl
    (fun grid b =>
      let index := (b - σ.base) / σ.m_block_size
      if index < σ.m_block_count then grid.set index false else grid)
    (List.replicate σ.m_block_count true)

/-! ## StackAllocator (stack_allocator.hpp)

Headers written into the backing buffer are modelled as an association
list from header offset (relative to the backing base) to header
contents, most recent write first; `List.lookup` therefore returns the
most recently written header at an offset, matching the memory.
`base` is the address of the backing buffer.  sizeof(AllocationHeader)
is 3 size_t fields = 24 bytes. -/

def stackHeaderSize : Nat := 24

structure StackHeader where
  size : Nat
  adjustment : Nat
  previous_offset : Nat
deriving DecidableEq, Repr

structure StackAllocator where
  m_total_size : Nat
  m_alignment : Nat
  base : Nat
  mem_ok : Bool
  m_current_offset : Nat
  m_previous_offset : Nat
  mem : List (Nat × StackHeader)
  m_stats : AllocationStats
  m_allocation_history : List AllocationInfo
deriving DecidableEq, Repr

/-- stack_allocator.hpp, StackAllocator constructor. -/
def stack_init (size alignment base : Nat) (mem_ok : Bool) : StackAllocator :=
  { m_total_size := size
    m_alignment := alignment
    base := base
    mem_ok := mem_ok
    m_current_offset := 0
    m_previous_offset := 0
    mem := []
    m_stats := {}
    m_allocation_history := [] }

/-- stack_allocator.hpp, StackAllocator::allocate.  The source aligns the
address of the *header* (current_addr = base + current_offset) and places
the payload immediately after the header. -/
def stack_allocate (σ : StackAllocator) (size alignment : Nat) :
    Option Nat × StackAllocator :=
  if ¬ σ.mem_ok ∨ size = 0 then (none, σ)
  else
    let current_addr := σ.base + σ.m_current_offset
    let aligned_addr := align_size current_addr alignment
    let adjustment := sub64 aligned_addr current_addr
    let total_size := adjustment + stackHeaderSize + size
    if σ.m_total_size < σ.m_current_offset + total_size then (none, σ)
    else
      let header_offset := σ.m_current_offset + adjustment
      let ptr := σ.base + header_offset + stackHeaderSize
      let (st, h) := record_allocation σ.m_stats σ.m_allocation_history ptr size alignment
      (some ptr,
       { σ with
          mem := (header_offset, ⟨size, adjustment, σ.m_previous_offset⟩) :: σ.mem
          m_previous_offset := σ.m_current_offset
          m_current_offset := header_offset + stackHeaderSize + size
          m_stats := st
          m_allocation_history := h })

/-- stack_allocator.hpp, StackAllocator::deallocate.  Reads the header at
ptr − 24; if the implied top of stack does not match current_offset the
call is a silent no-op.  A header-lookup miss corresponds to reading
memory no header was written to (undefined behaviour in the source) and
is modelled as a no-op. -/
def stack_deallocate (σ : StackAllocator) (p : Nat) : StackAllocator :=
  if p = 0 ∨ ¬ σ.mem_ok then σ
  else
    let header_offset := p - σ.base - stackHeaderSize
    match σ.mem.lookup header_offset with
    | none => σ
    | some header =>
      let expected_offset := (p - σ.base) + header.size
      if expected_offset ≠ σ.m_current_offset then σ
      else
        let cur := σ.m_previous_offset
        { σ with
            m_current_offset := cur
            m_previous_offset := if 0 < cur then header.previous_offset else 0
            m_stats := record_deallocation σ.m_stats header.size }

/-- stack_allocator.hpp, StackAllocator::reset (the buffer contents are
not cleared). -/
def stack_reset (σ : StackAllocator) : StackAllocator :=
  { σ with
      m_current_offset := 0
      m_previous_offset := 0
      m_stats := {}
      m_allocation_history := [] }

/-- stack_allocator.hpp, StackAllocator::owns. -/
def stack_owns (σ : StackAllocator) (p : Nat) : Bool :=
  σ.mem_ok && decide (p ≠ 0) && decide (σ.base ≤ p) &&
    decide (p < σ.base + σ.m_total_size)

/-- stack_allocator.hpp, StackAllocator::available = total − current_offset. -/
def stack_available (σ : StackAllocator) : Nat :=
  sub64 σ.m_total_size σ.m_current_offset

/-! ## FreeListAllocator (freelist_allocator.hpp)

Free blocks are modelled as (addr, size) pairs in linked-list order;
the constructor makes the list a single block covering the region, and
the operations keep it sorted by address.  Addresses are offsets into
the backing region (the source never uses the absolute base address in
its arithmetic; ownership of ptr reduces to ptr − base ∈ [0, total)).
Allocation headers written into memory are modelled by the ghost
association list `allocs` from header offset to the stored header size;
sizeof(AllocationHeader) = sizeof(FreeBlock) = 16 bytes,
MIN_BLOCK_SIZE = 16. -/

def flHeaderSize : Nat := 16
def flFreeBlockSize : Nat := 16
def MIN_BLOCK_SIZE : Nat := 16

inductive FitPolicy where
  | FIRST_FIT
  | BEST_FIT
  | WORST_FIT
deriving DecidableEq, Repr

structure FLBlock where
  addr : Nat
  size : Nat
deriving DecidableEq, Repr

structure FreeListAllocator where
  m_total_size : Nat
  m_policy : FitPolicy
  mem_ok : Bool
  m_free_list : List FLBlock
  allocs : List (Nat × Nat)
  m_stats : AllocationStats
  m_allocation_history : List AllocationInfo
deriving DecidableEq, Repr

/-- freelist_allocator.hpp, FreeListAllocator constructor: one free block
covering the entire region (when the backing allocation succeeded). -/
def fl_init (size : Nat) (policy : FitPolicy) (mem_ok : Bool) : FreeListAllocator :=
  { m_total_size := size
    m_policy := policy
    mem_ok := mem_ok
    m_free_list := if mem_ok then [⟨0, size⟩] else []
    allocs := []
    m_stats := {}
    m_allocation_history := [] }

/-- freelist_allocator.hpp, FreeListAllocator::find_first_fit, returning
the index of the found block (the source returns the block and its
predecessor; the index determines both). -/
def find_first_fit (l : List FLBlock) (size : Nat) : Option Nat :=
  match l with
  | [] => none
  | b :: t =>
    if size ≤ b.size then some 0
    else (find_first_fit t size).map (· + 1)

/-- freelist_allocator.hpp, FreeListAllocator::find_best_fit: walk the
list keeping the block of smallest sufficient size (strict improvement,
so ties keep the first); best_size starts at SIZE_MAX. -/
def find_best_fit_go (size : Nat) : List FLBlock → Nat → Option Nat → Nat → Option Nat
  | [], _, best, _ => best
  | b :: t, i, best, best_size =>
    if size ≤ b.size ∧ b.size < best_size then
      find_best_fit_go size t (i + 1) (some i) b.size
    else
      find_best_fit_go size t (i + 1) best best_size

def find_best_fit (l : List FLBlock) (size : Nat) : Option Nat :=
  find_best_fit_go size l 0 none (U64 - 1)

/-- freelist_allocator.hpp, FreeListAllocator::find_worst_fit: keep the
block of largest sufficient size (strict improvement); worst_size starts
at 0. -/
def find_worst_fit_go (size : Nat) : List FLBlock → Nat → Option Nat → Nat → Option Nat
  | [], _, worst, _ => worst
  | b :: t, i, worst, worst_size =>
    if size ≤ b.size ∧ worst_size < b.size then
      find_worst_fit_go size t (i + 1) (some i) b.size
    else
      find_worst_fit_go size t (i + 1) worst worst_size

def find_worst_fit (l : List FLBlock) (size : Nat) : Option Nat :=
  find_worst_fit_go size l 0 none 0

/-- freelist_allocator.hpp, FreeListAllocator::insert_free_block, inner
walk: advance while the next node's address is below the new block's. -/
def insert_free_block_rest (b : FLBlock) : FLBlock → List FLBlock → List FLBlock
  | cur, [] => [cur, b]
  | cur, n :: t =>
    if n.addr < b.addr then cur :: insert_free_block_rest b n t
    else cur :: b :: n :: t

/-- freelist_allocator.hpp, FreeListAllocator::insert_free_block: sorted
insert by address. -/
def insert_free_block (b : FLBlock) (l : List FLBlock) : List FLBlock :=
  match l with
  | [] => [b]
  | h :: t => if b.addr < h.addr then b :: h :: t else insert_free_block_rest b h t

/-- freelist_allocator.hpp, FreeListAllocator::coalesce: merge while the
current block's end equals the next block's address, staying on the same
node after a merge. -/
def coalesce : List FLBlock → List FLBlock
  | [] => []
  | [b] => [b]
  | b :: c :: t =>
    if b.addr + b.size = c.addr then coalesce (⟨b.addr, b.size + c.size⟩ :: t)
    else b :: coalesce (c :: t)
termination_by l => l.length

/-- freelist_allocator.hpp, FreeListAllocator::available: sum of free
block sizes (the walk is size_t addition; block sizes are bounded by the
region size in every reachable state, so no wrap is modelled). -/
def fl_available (σ : FreeListAllocator) : Nat :=
  (σ.m_free_list.map FLBlock.size).sum

/-- freelist_allocator.hpp, FreeListAllocator::free_block_count. -/
def free_block_count (σ : FreeListAllocator) : Nat :=
  σ.m_free_list.length

/-- freelist_allocator.hpp, FreeListAllocator::largest_free_block. -/
def largest_free_block (σ : FreeListAllocator) : Nat :=
  σ.m_free_list.foldl (fun largest b => if largest < b.size then b.size else largest) 0

/-- freelist_allocator.hpp, FreeListAllocator::update_fragmentation. -/
def update_fragmentation (σ : FreeListAllocator) : FreeListAllocator :=
  let free_memory := fl_available σ
  let largest := largest_free_block σ
  { σ with
      m_stats :=
        { σ.m_stats with
            fragmentation_bytes :=
              if 0 < free_memory ∧ largest < free_memory then free_memory - largest
              else 0 } }

/-- freelist_allocator.hpp, FreeListAllocator::owns (in offset form:
the offset lies inside [0, total)). -/
def fl_owns (σ : FreeListAllocator) (p : Nat) : Bool :=
  σ.mem_ok && decide (p < σ.m_total_size)

/-- freelist_allocator.hpp, FreeListAllocator::allocate, block consumption
phase: split the chosen block when the remainder can hold a free node of
MIN_BLOCK_SIZE, otherwise absorb the whole block; returns the new free
list and the consumed size written into the allocation header. -/
def fl_try_split (σ : FreeListAllocator) (i total_size : Nat) : List FLBlock × Nat :=
  let b := σ.m_free_list.getD i ⟨0, 0⟩
  let remaining := b.size - total_size
  if flFreeBlockSize + MIN_BLOCK_SIZE ≤ remaining then
    (σ.m_free_list.set i ⟨b.addr + total_size, remaining⟩, total_size)
  else
    (σ.m_free_list.eraseIdx i, b.size)

/-- freelist_allocator.hpp, FreeListAllocator::allocate, commit phase on
the block found at index i: consume the block, write the allocation
header, record the allocation and update the fragmentation estimate. -/
def fl_commit (σ : FreeListAllocator) (size alignment i total_size : Nat) :
    Option Nat × FreeListAllocator :=
  let b := σ.m_free_list.getD i ⟨0, 0⟩
  let fc := fl_try_split σ i total_size
  let ptr := b.addr + flHeaderSize
  let rh := record_allocation σ.m_stats σ.m_allocation_history ptr size alignment
  (some ptr,
   update_fragmentation
     { σ with
        m_free_list := fc.1
        allocs := (b.addr, fc.2) :: σ.allocs
        m_stats := rh.1
        m_allocation_history := rh.2 })

/-- freelist_allocator.hpp, FreeListAllocator::allocate, search phase:
dispatch on the fit policy. -/
def fl_find_block (σ : FreeListAllocator) (total_size : Nat) : Option Nat :=
  match σ.m_policy with
  | .FIRST_FIT => find_first_fit σ.m_free_list total_size
  | .BEST_FIT => find_best_fit σ.m_free_list total_size
  | .WORST_FIT => find_worst_fit σ.m_free_list total_size

/-- freelist_allocator.hpp, FreeListAllocator::allocate: the request is
size + header, aligned up; search per policy, then consume the found
block. -/
def fl_allocate (σ : FreeListAllocator) (size alignment : Nat) :
    Option Nat × FreeListAllocator :=
  if ¬ σ.mem_ok ∨ size = 0 then (none, σ)
  else
    match fl_find_block σ (align_size ((size + flHeaderSize) % U64) alignment) with
    | none => (none, σ)
    | some i => fl_commit σ size alignment i (align_size ((size + flHeaderSize) % U64) alignment)

/-- freelist_allocator.hpp, FreeListAllocator::deallocate, free phase:
turn the allocation header at header_addr (carrying the stored size)
into a free block, insert it sorted, coalesce, record the deallocation
of size − header bytes, update the fragmentation estimate. -/
def fl_free (σ : FreeListAllocator) (header_addr size : Nat) : FreeListAllocator :=
  update_fragmentation
    { σ with
        m_free_list := coalesce (insert_free_block ⟨header_addr, size⟩ σ.m_free_list)
        allocs := σ.allocs.eraseP (fun e => e.1 == header_addr)
        m_stats := record_deallocation σ.m_stats (sub64 size flHeaderSize) }

/-- freelist_allocator.hpp, FreeListAllocator::deallocate.  The header at
ptr − 16 is read back from memory (ghost list `allocs`); a miss is a read
of memory holding no allocation header (undefined behaviour in the
source, modelled as a no-op). -/
def fl_deallocate (σ : FreeListAllocator) (p : Nat) : FreeListAllocator :=
  if p = 0 ∨ ¬ fl_owns σ p then σ
  else
    match σ.allocs.lookup (p - flHeaderSize) with
    | none => σ
    | some size => fl_free σ (p - flHeaderSize) size

/-- freelist_allocator.hpp, FreeListAllocator::reset. -/
def fl_reset (σ : FreeListAllocator) : FreeListAllocator :=
  { σ with
      m_free_list := if σ.mem_ok then [⟨0, σ.m_total_size⟩] else σ.m_free_list
      allocs := []
      m_stats := {}
      m_allocation_history := [] }

/-! ## Statistics (statistics.hpp)

Doubles are modelled as exact rationals.  The source stores
`std_dev = sqrt(variance)` where `variance` is the mean squared
deviation; the square root of a rational is irrational in general, so
the embedded record carries the exactly-computed `variance` field and
`std_dev` is exposed as `Real.sqrt` of it.  `std::sort` is modelled by
insertion sort (a sort on rationals; the source sorts ascending).
`static_cast<size_t>` of the non-negative double n·0.95 truncates, i.e.
takes the floor. -/

structure BenchmarkResult where
  mean : ℚ := 0
  median : ℚ := 0
  variance : ℚ := 0
  min : ℚ := 0
  max : ℚ := 0
  p95 : ℚ := 0
  p99 : ℚ := 0
  sample_count : Nat := 0
deriving DecidableEq, Repr

/-- statistics.hpp, the stored std_dev field: sqrt of the variance. -/
noncomputable def BenchmarkResult.std_dev (r : BenchmarkResult) : ℝ :=
  Real.sqrt (r.variance : ℝ)

/-- statistics.hpp, Statistics::analyze. -/
def analyze (samples : List ℚ) : BenchmarkResult :=
  if samples = [] then {}
  else
    let n := samples.length
    let sorted := List.insertionSort (· ≤ ·) samples
    let mean := sorted.sum / (n : ℚ)
    let mid := n / 2
    let median :=
      if n % 2 = 0 then (sorted.getD (mid - 1) 0 + sorted.getD mid 0) / 2
      else sorted.getD mid 0
    let variance := (sorted.map (fun s => (s - mean) * (s - mean))).sum / (n : ℚ)
    { mean := mean
      median := median
      variance := variance
      min := sorted.headI
      max := sorted.getLastD 0
      p95 := sorted.getD (Nat.floor ((n : ℚ) * (95 / 100))) 0
      p99 := sorted.getD (Nat.floor ((n : ℚ) * (99 / 100))) 0
      sample_count := n }

/-- statistics.hpp, Statistics::throughput. -/
def throughput (operations : Nat) (time_ns : ℚ) : ℚ :=
  if time_ns ≤ 0 then 0 else (operations : ℚ) * 1000000000 / time_ns


/-- stack_allocator.hpp, StackAllocator::get_marker. -/
def get_marker (σ : StackAllocator) : Nat := σ.m_current_offset

/-- stack_allocator.hpp, StackAllocator::rollback_to_marker. -/
def rollback_to_marker (σ : StackAllocator) (marker : Nat) : StackAllocator :=
  if σ.m_current_offset < marker then σ
  else
    let freed := σ.m_current_offset - marker
    { σ with
        m_current_offset := marker
        m_previous_offset := 0
        m_stats :=
          if 0 < freed then { σ.m_stats with current_bytes_used := marker }
          else σ.m_stats }

/-! ## Reachable states

The reachability relations below define the states obtainable through
the public operations, under the documented caller contract: alignment
arguments to the fixed-buffer variants are powers of two (spec §4.1 and
§7 declare other alignments undefined for them), requests do not
overflow size_t, and deallocate is called on live loaned addresses (the
ownership contract of spec §3; passing other addresses is a caller
error whose effect the source does not define).  For the free-list
variant, construction success and a positive region size are assumed. -/

inductive PoolReach (block_size block_count alignment base : Nat) (mem_ok : Bool) :
    PoolAllocator → Prop where
  | init : PoolReach block_size block_count alignment base mem_ok
      (pool_init block_size block_count alignment base mem_ok)
  | alloc {σ} (s a : Nat) : PoolReach block_size block_count alignment base mem_ok σ →
      PoolReach block_size block_count alignment base mem_ok (pool_allocate σ s a).2
  | dealloc {σ} (p : Nat) : PoolReach block_size block_count alignment base mem_ok σ →
      PoolReach block_size block_count alignment base mem_ok (pool_deallocate σ p)
  | reset {σ} : PoolReach block_size block_count alignment base mem_ok σ →
      PoolReach block_size block_count alignment base mem_ok (pool_reset σ)

inductive StackReach (size alignment base : Nat) (mem_ok : Bool) :
    StackAllocator → Prop where
  | init : StackReach size alignment base mem_ok (stack_init size alignment base mem_ok)
  | alloc {σ} (s a : Nat) : StackReach size alignment base mem_ok σ →
      StackReach size alignment base mem_ok (stack_allocate σ s a).2
  | dealloc {σ} (p : Nat) : StackReach size alignment base mem_ok σ →
      StackReach size alignment base mem_ok (stack_deallocate σ p)
  | rollback {σ} (m : Nat) : StackReach size alignment base mem_ok σ →
      StackReach size alignment base mem_ok (rollback_to_marker σ m)
  | reset {σ} : StackReach size alignment base mem_ok σ →
      StackReach size alignment base mem_ok (stack_reset σ)

inductive StdReach : StandardAllocator → Prop where
  | init : StdReach std_init
  | alloc {σ} (s a : Nat) (sys : Option Nat) : StdReach σ →
      StdReach (std_allocate σ s a sys).2
  | dealloc {σ} (p : Nat) : StdReach σ → StdReach (std_deallocate σ p)
  | reset {σ} : StdReach σ → StdReach (std_reset σ)

inductive FLReach (total : Nat) (policy : FitPolicy) : FreeListAllocator → Prop where
  | init : 0 < total → FLReach total policy (fl_init total policy true)
  | alloc {σ} (s a k : Nat) : FLReach total policy σ → a = 2 ^ k → k < 64 →
      s + flHeaderSize + a ≤ U64 → FLReach total policy (fl_allocate σ s a).2
  | dealloc {σ} (addr sz : Nat) : FLReach total policy σ → (addr, sz) ∈ σ.allocs →
      FLReach total policy (fl_deallocate σ (addr + flHeaderSize))
  | reset {σ} : FLReach total policy σ → FLReach total policy (fl_reset σ)

/-- Deallocating a list of live loans: the loaned pointer for an
allocation header entry (addr, size) is addr + 16. -/
def dealloc_all (σ : FreeListAllocator) (l : List (Nat × Nat)) : FreeListAllocator :=
  l.foldl (fun σ e => fl_deallocate σ (e.1 + flHeaderSize)) σ

/-! ## Ghost layout for the free-list allocator

A reachable free-list allocator partitions its region [0, total) into a
left-to-right sequence of segments, each either a free block (a member
of the free list) or a live allocation (a written allocation header).
`Seg` is one segment of that sequence. -/

structure Seg where
  free : Bool
  addr : Nat
  size : Nat
deriving DecidableEq, Repr

/-- The segment list covers [s, t) contiguously with positive sizes. -/
def chainCov : Nat → List Seg → Nat → Prop
  | s, [], t => s = t
  | s, e :: R, t => e.addr = s ∧ 0 < e.size ∧ chainCov (s + e.size) R t

/-- The free blocks of a segment list, in order. -/
def freesOf (L : List Seg) : List FLBlock :=
  (L.filter (fun e => e.free)).map (fun e => ⟨e.addr, e.size⟩)

/-- The live allocation headers of a segment list, in order. -/
def allocsOf (L : List Seg) : List (Nat × Nat) :=
  (L.filter (fun e => ! e.free)).map (fun e => (e.addr, e.size))

/-- No two consecutive segments are both free (the free list is kept
coalesced between operations). -/
def noTwoFrees (L : List Seg) : Prop :=
  List.Chain' (fun a b => ¬ (a.free = true ∧ b.free = true)) L

/-- Merging every run of consecutive free segments: the ghost image of
FreeListAllocator::coalesce. -/
def mergeRuns : List Seg → List Seg
  | [] => []
  | [e] => [e]
  | a :: b :: R =>
    if a.free && b.free then mergeRuns (⟨true, a.addr, a.size + b.size⟩ :: R)
    else a :: mergeRuns (b :: R)
termination_by L => L.length

/-- The state invariant of reachable free-list allocators: the free list
and the live allocation headers tile [0, total) exactly, the free list
is the in-order free part of the tiling (hence address-sorted), no two
free segments are adjacent, and every live header consumes more than the
header itself. -/
def FLInv (σ : FreeListAllocator) : Prop :=
  σ.mem_ok = true ∧ 0 < σ.m_total_size ∧
  (∀ e ∈ σ.allocs, flHeaderSize < e.2) ∧
  ∃ L, chainCov 0 L σ.m_total_size ∧ noTwoFrees L ∧
    σ.m_free_list = freesOf L ∧ σ.allocs.Perm (allocsOf L)

/-! ## Arithmetic facts about the embedded size_t helpers -/

theorem sub64_eq_of_le {a b : Nat} (hb : b ≤ a) (ha : a < U64) :
    sub64 a b = a - b := by
  have hbU : b % U64 = b := Nat.mod_eq_of_lt (lt_of_le_of_lt hb ha)
  have hU : 0 < U64 := by norm_num [U64]
  have h1 : a + (U64 - b) = (a - b) + U64 := by omega
  rw [sub64, hbU, h1, Nat.add_mod_right, Nat.mod_eq_of_lt (by omega)]

theorem U64_split {k : Nat} (hk : k < 64) : U64 = 2 ^ k * 2 ^ (64 - k) := by
  have h64 : k + (64 - k) = 64 := by omega
  calc U64 = 2 ^ 64 := rfl
    _ = 2 ^ (k + (64 - k)) := by rw [h64]
    _ = 2 ^ k * 2 ^ (64 - k) := pow_add 2 k (64 - k)

theorem land_mul_pow {k : Nat} (y z : Nat) :
    y &&& (2 ^ k * z) = 2 ^ k * ((y / 2 ^ k) &&& z) := by
  apply Nat.eq_of_testBit_eq
  intro i
  have hL : (2 ^ k * z) = z <<< k := by rw [Nat.shiftLeft_eq, Nat.mul_comm]
  have hR : 2 ^ k * ((y / 2 ^ k) &&& z) = ((y >>> k) &&& z) <<< k := by
    rw [Nat.shiftLeft_eq, Nat.mul_comm, Nat.shiftRight_eq_div_pow]
  rw [hR, Nat.testBit_land, hL, Nat.testBit_shiftLeft, Nat.testBit_shiftLeft,
    Nat.testBit_land, Nat.testBit_shiftRight]
  by_cases h : k ≤ i
  · have hik : k + (i - k) = i := by omega
    simp [h, hik, Bool.and_left_comm]
  · simp [ge_iff_le, h]

/-- Characterization of align_size at a power-of-two alignment without
overflow: it rounds up to the next multiple of the alignment. -/
theorem align_size_two_pow {k x : Nat} (hk : k < 64) (hx : x + 2 ^ k ≤ U64) :
    align_size x (2 ^ k) = (x + 2 ^ k - 1) / 2 ^ k * 2 ^ k := by
  have ha1 : 1 ≤ 2 ^ k := Nat.one_le_two_pow
  have haU : 2 ^ k < U64 := Nat.pow_lt_pow_right (by norm_num) hk
  have hU : 0 < U64 := by norm_num [U64]
  have haM : (2 ^ k) % U64 = 2 ^ k := Nat.mod_eq_of_lt haU
  set y := x + 2 ^ k - 1 with hy
  have hyU : y < U64 := by omega
  have h1 : sub64 ((x + 2 ^ k) % U64) 1 = y := by
    rcases Nat.lt_or_ge (x + 2 ^ k) U64 with h | h
    · rw [Nat.mod_eq_of_lt h, sub64_eq_of_le (by omega) h]
    · have hEq : x + 2 ^ k = U64 := le_antisymm hx h
      have h0 : (x + 2 ^ k) % U64 = 0 := by rw [hEq, Nat.mod_self]
      rw [h0, sub64]
      have : (1 : Nat) % U64 = 1 := Nat.mod_eq_of_lt (by omega)
      rw [this, Nat.zero_add, Nat.mod_eq_of_lt (by omega)]
      omega
  have h2 : sub64 0 (2 ^ k % U64) = U64 - 2 ^ k := by
    rw [haM, sub64, haM, Nat.zero_add, Nat.mod_eq_of_lt (by omega)]
  rw [align_size, h1, h2]
  have hsplit : U64 - 2 ^ k = 2 ^ k * (2 ^ (64 - k) - 1) := by
    rw [U64_split hk, Nat.mul_sub, Nat.mul_one]
  rw [hsplit, land_mul_pow, Nat.and_pow_two_sub_one_eq_mod]
  have hdiv : y / 2 ^ k < 2 ^ (64 - k) := by
    apply Nat.div_lt_of_lt_mul
    have hUk : U64 = 2 ^ k * 2 ^ (64 - k) := U64_split hk
    omega
  rw [Nat.mod_eq_of_lt hdiv, Nat.mul_comm]

theorem align_size_dvd {k x : Nat} (hk : k < 64) (hx : x + 2 ^ k ≤ U64) :
    2 ^ k ∣ align_size x (2 ^ k) := by
  rw [align_size_two_pow hk hx]
  exact dvd_mul_left _ _

theorem align_size_ge {k x : Nat} (hk : k < 64) (hx : x + 2 ^ k ≤ U64) :
    x ≤ align_size x (2 ^ k) := by
  rw [align_size_two_pow hk hx]
  have ha1 : 1 ≤ 2 ^ k := Nat.one_le_two_pow
  have h1 : 2 ^ k * ((x + 2 ^ k - 1) / 2 ^ k) + (x + 2 ^ k - 1) % 2 ^ k
      = x + 2 ^ k - 1 := Nat.div_add_mod _ _
  have h2 : (x + 2 ^ k - 1) % 2 ^ k < 2 ^ k := Nat.mod_lt (x + 2 ^ k - 1) (by omega)
  rw [Nat.mul_comm] at h1
  omega

theorem align_size_le {k x : Nat} (hk : k < 64) (hx : x + 2 ^ k ≤ U64) :
    align_size x (2 ^ k) ≤ x + 2 ^ k - 1 := by
  rw [align_size_two_pow hk hx]
  exact Nat.div_mul_le_self _ _

theorem align_size_of_dvd {k x : Nat} (hk : k < 64) (hx : x + 2 ^ k ≤ U64)
    (hd : 2 ^ k ∣ x) : align_size x (2 ^ k) = x := by
  rw [align_size_two_pow hk hx]
  obtain ⟨q, rfl⟩ := hd
  have ha1 : 1 ≤ 2 ^ k := Nat.one_le_two_pow
  have h1 : 2 ^ k * q + 2 ^ k - 1 = 2 ^ k * q + (2 ^ k - 1) := by omega
  rw [h1, Nat.mul_add_div (by omega), Nat.div_eq_of_lt (by omega), Nat.add_zero,
    Nat.mul_comm]

/-! ## Claim C10: StandardAllocator::reset releases and clears everything -/

/-- C10: For the baseline (StandardAllocator) variant, reset() releases
every tracked allocation and clears the tracking map, statistics and
history, so that afterwards owns(p) is false for every pointer p and
stats() is the all-zero record, regardless of outstanding loans. -/
theorem std_reset_releases_all (σ : StandardAllocator) :
    (∀ p, std_owns (std_reset σ) p = false) ∧
    (std_reset σ).m_stats = ⟨0, 0, 0, 0, 0, 0, 0⟩ ∧
    (std_reset σ).m_allocations = [] ∧
    (std_reset σ).m_allocation_history = [] :=
  ⟨fun _ => rfl, rfl, rfl, rfl⟩

/-! ## Claim C2: zero-size allocation -/

/-- C2, counterexample: the pool variant does not special-case size 0;
on a fresh pool (block size 16, 4 blocks, alignment 16, backing base 16)
allocate(0, 16) returns the first block (address 16) instead of null,
and records the allocation in the statistics. -/
theorem pool_zero_size_alloc_not_null :
    (pool_allocate (pool_init 16 4 16 16 true) 0 16).1 = some 16 ∧
    (pool_allocate (pool_init 16 4 16 16 true) 0 16).2.m_stats.total_allocations = 1 := by
  decide

/-- C2, amended: the stack, free-list and standard variants return null
on allocate(0, a) for every alignment and leave the state (statistics
included) unchanged; the pool variant does not special-case size 0 and
returns a block whenever the pool is usable and a free block exists. -/
theorem zero_size_allocation (σs : StackAllocator) (σf : FreeListAllocator)
    (σd : StandardAllocator) (σp : PoolAllocator) :
    (∀ a, stack_allocate σs 0 a = (none, σs)) ∧
    (∀ a, fl_allocate σf 0 a = (none, σf)) ∧
    (∀ a sys, std_allocate σd 0 a sys = (none, σd)) ∧
    (∀ a, σp.mem_ok = true → σp.m_free_list ≠ [] →
      (pool_allocate σp 0 a).1.isSome = true) := by
  refine ⟨fun a => ?_, fun a => ?_, fun a sys => ?_, fun a hm hl => ?_⟩
  · simp [stack_allocate]
  · simp [fl_allocate]
  · simp [std_allocate]
  · cases h : σp.m_free_list with
    | nil => exact absurd h hl
    | cons b rest => simp [pool_allocate, hm, h]

/-- C2, witness for the amended statement at concrete inputs. -/
theorem zero_size_allocation_witness :
    stack_allocate (stack_init 64 16 16 true) 0 8 = (none, stack_init 64 16 16 true) ∧
    (pool_init 16 4 16 16 true).mem_ok = true ∧
    (pool_init 16 4 16 16 true).m_free_list ≠ [] ∧
    (pool_allocate (pool_init 16 4 16 16 true) 0 8).1.isSome = true :=
  ⟨(zero_size_allocation (stack_init 64 16 16 true) (fl_init 16 .FIRST_FIT true)
      std_init (pool_init 16 4 16 16 true)).1 8,
   by decide, by decide,
   (zero_size_allocation (stack_init 64 16 16 true) (fl_init 16 .FIRST_FIT true)
      std_init (pool_init 16 4 16 16 true)).2.2.2 8 (by decide) (by decide)⟩

/-! ## Claim C3: statistics conservation -/

/-- C3: the free-list variant records a deallocation of
aligned_total − header bytes for an allocation recorded with the
requested size, so current_bytes_used wraps below zero: on a fresh
FreeList(1024, FIRST_FIT), allocate(8, 16) followed by deallocating the
returned pointer (offset 16) leaves current_bytes_used = 2^64 − 8 while
peak_bytes_used = 8, violating peak ≥ current.  The counter identity
current_allocations = total_allocations − total_deallocations does hold
at this state. -/
theorem freelist_peak_bytes_violated :
    (fl_deallocate (fl_allocate (fl_init 1024 .FIRST_FIT true) 8 16).2 16).m_stats.current_bytes_used
        = U64 - 8 ∧
    (fl_deallocate (fl_allocate (fl_init 1024 .FIRST_FIT true) 8 16).2 16).m_stats.peak_bytes_used
        = 8 ∧
    ¬ ((fl_deallocate (fl_allocate (fl_init 1024 .FIRST_FIT true) 8 16).2 16).m_stats.current_bytes_used
        ≤ (fl_deallocate (fl_allocate (fl_init 1024 .FIRST_FIT true) 8 16).2 16).m_stats.peak_bytes_used) ∧
    (fl_deallocate (fl_allocate (fl_init 1024 .FIRST_FIT true) 8 16).2 16).m_stats.current_allocations
        = 0 := by
  decide

/-! ## Claim C7: the history active flag -/

/-- C7: each successful allocation appends a history entry with
is_active = true, but no deallocation path ever clears the flag: after
pool allocate(8,16) (returning block 16) and a successful
deallocate(16) (total_deallocations = 1), the history entry still has
is_active = true. -/
theorem history_active_flag_never_cleared :
    (pool_deallocate (pool_allocate (pool_init 16 4 16 16 true) 8 16).2 16).m_allocation_history
        = [⟨16, 16, 16, 0, true⟩] ∧
    (pool_deallocate (pool_allocate (pool_init 16 4 16 16 true) 8 16).2 16).m_stats.total_deallocations
        = 1 := by
  decide

/-! ## Claim C1: alignment of returned pointers -/

/-- C1: the stack variant aligns the *header* address and returns the
byte right after the 24-byte header, so for any 16-aligned backing base
(the constructor allocates with the default max-align = 16) a fresh
Stack(1024) returns p = base + 24 for allocate(8, 16), and
p mod 16 = 8 ≠ 0 — the alignment property fails on the code. -/
theorem stack_allocate_misaligned (base : Nat) (hbase : base % 16 = 0)
    (hbound : base + 1040 ≤ U64) :
    (stack_allocate (stack_init 1024 16 base true) 8 16).1 = some (base + 24) ∧
    (base + 24) % 16 = 8 := by
  have hU : base + 1040 ≤ 2 ^ 64 := hbound
  have halign : align_size base 16 = base := by
    rw [show (16 : Nat) = 2 ^ 4 from by norm_num]
    refine align_size_of_dvd (by norm_num) ?_ (Nat.dvd_of_mod_eq_zero hbase)
    show base + 2 ^ 4 ≤ U64
    have : base + 2 ^ 4 ≤ 2 ^ 64 := by omega
    exact this
  have hadj : sub64 base base = 0 := by
    rw [sub64_eq_of_le le_rfl (show base < U64 from by
      have : base < 2 ^ 64 := by omega
      exact this)]
    omega
  constructor
  · simp [stack_allocate, stack_init, halign, hadj, stackHeaderSize]
  · omega

/-- C1, witness at base = 16. -/
theorem stack_allocate_misaligned_witness :
    16 % 16 = 0 ∧
    ((stack_allocate (stack_init 1024 16 16 true) 8 16).1 = some (16 + 24) ∧
      (16 + 24) % 16 = 8) :=
  ⟨by decide, stack_allocate_misaligned 16 (by decide) (by decide)⟩

/-! ## Claims C5 and C6: stack LIFO discipline -/

/-- Unfolding a successful stack allocation: the shape of the returned
pointer and of the successor state. -/
theorem stack_allocate_some {σ : StackAllocator} {s a p : Nat} {σ' : StackAllocator}
    (h : stack_allocate σ s a = (some p, σ')) :
    0 < s ∧ σ.mem_ok = true ∧
    σ'.base = σ.base ∧ σ'.mem_ok = σ.mem_ok ∧ σ'.m_total_size = σ.m_total_size ∧
    ∃ adj,
      p = σ.base + (σ.m_current_offset + adj) + stackHeaderSize ∧
      σ'.m_current_offset = σ.m_current_offset + adj + stackHeaderSize + s ∧
      σ'.m_previous_offset = σ.m_current_offset ∧
      σ'.mem = (σ.m_current_offset + adj, ⟨s, adj, σ.m_previous_offset⟩) :: σ.mem := by
  simp only [stack_allocate] at h
  split at h
  · exact absurd h (by simp)
  · next hc =>
    push_neg at hc
    split at h
    · exact absurd h (by simp)
    · next hc2 =>
      injection h with h1 h2
      injection h1 with h1
      subst h1
      subst h2
      exact ⟨Nat.pos_of_ne_zero hc.2, hc.1, rfl, rfl, rfl, _, rfl, by ring_nf, rfl, rfl⟩

/-- Unfolding a stack deallocation of the top allocation (the implied
end offset matches current_offset): the stack pops. -/
theorem stack_deallocate_pop {σ : StackAllocator} {p : Nat} {hdr : StackHeader}
    (hp : p ≠ 0) (hm : σ.mem_ok = true)
    (hl : σ.mem.lookup (p - σ.base - stackHeaderSize) = some hdr)
    (he : (p - σ.base) + hdr.size = σ.m_current_offset) :
    stack_deallocate σ p =
      { σ with
          m_current_offset := σ.m_previous_offset
          m_previous_offset :=
            if 0 < σ.m_previous_offset then hdr.previous_offset else 0
          m_stats := record_deallocation σ.m_stats hdr.size } := by
  simp only [stack_deallocate, hm]
  rw [if_neg (by simp [hp])]
  rw [hl]
  simp [he]

/-- Field-wise version of stack_deallocate_pop. -/
theorem stack_deallocate_pop_fields {σ : StackAllocator} {p : Nat} {hdr : StackHeader}
    (hp : p ≠ 0) (hm : σ.mem_ok = true)
    (hl : σ.mem.lookup (p - σ.base - stackHeaderSize) = some hdr)
    (he : (p - σ.base) + hdr.size = σ.m_current_offset) :
    (stack_deallocate σ p).m_current_offset = σ.m_previous_offset ∧
    (stack_deallocate σ p).m_previous_offset
        = (if 0 < σ.m_previous_offset then hdr.previous_offset else 0) ∧
    (stack_deallocate σ p).mem = σ.mem ∧
    (stack_deallocate σ p).base = σ.base ∧
    (stack_deallocate σ p).mem_ok = σ.mem_ok := by
  rw [stack_deallocate_pop hp hm hl he]
  exact ⟨rfl, rfl, rfl, rfl, rfl⟩

/-- C5: from the empty stack state, allocate, allocate, deallocate the
second, deallocate the first leaves current_offset = previous_offset = 0,
for any sizes and alignments for which both allocations succeed. -/
theorem stack_lifo (total align base s1 a1 s2 a2 p1 p2 : Nat)
    (σ1 σ2 : StackAllocator)
    (h1 : stack_allocate (stack_init total align base true) s1 a1 = (some p1, σ1))
    (h2 : stack_allocate σ1 s2 a2 = (some p2, σ2)) :
    (stack_deallocate (stack_deallocate σ2 p2) p1).m_current_offset = 0 ∧
    (stack_deallocate (stack_deallocate σ2 p2) p1).m_previous_offset = 0 := by
  obtain ⟨hs1, -, hb1, hm1, ht1, adj1, hp1, hc1, hpr1, hmem1⟩ := stack_allocate_some h1
  obtain ⟨hs2, hm2a, hb2, hm2, ht2, adj2, hp2, hc2, hpr2, hmem2⟩ := stack_allocate_some h2
  simp only [stack_init] at hb1 hm1 ht1 hp1 hc1 hpr1 hmem1
  rw [hb1] at hp2 hb2
  rw [hc1] at hc2 hp2 hpr2 hmem2
  rw [hpr1, hmem1] at hmem2
  simp only [Nat.zero_add] at hp1 hc1 hp2 hc2 hpr2 hmem2
  have hm2ok : σ2.mem_ok = true := hm2.trans hm1
  -- first pop: deallocate p2 from σ2
  have hkey2 : p2 - σ2.base - stackHeaderSize = adj1 + stackHeaderSize + s1 + adj2 := by
    rw [hb2, hp2]
    omega
  have hl2 : σ2.mem.lookup (p2 - σ2.base - stackHeaderSize)
      = some ⟨s2, adj2, 0⟩ := by
    rw [hkey2, hmem2]
    simp [List.lookup]
  have he2 : (p2 - σ2.base) + s2 = σ2.m_current_offset := by
    rw [hb2, hp2, hc2]
    omega
  have hp2ne : p2 ≠ 0 := by
    rw [hp2, stackHeaderSize]
    omega
  obtain ⟨hc3, hpr3i, hmem3, hb3, hmok3⟩ :=
    stack_deallocate_pop_fields hp2ne hm2ok hl2 he2
  have hpr3 : (stack_deallocate σ2 p2).m_previous_offset = 0 := by
    rw [hpr3i]
    split <;> rfl
  rw [hpr2] at hc3
  -- second pop: deallocate p1 from stack_deallocate σ2 p2
  have hm3ok : (stack_deallocate σ2 p2).mem_ok = true := hmok3.trans hm2ok
  have hkey1 : p1 - (stack_deallocate σ2 p2).base - stackHeaderSize = adj1 := by
    rw [hb3, hb2, hp1]
    omega
  have hl1 : (stack_deallocate σ2 p2).mem.lookup
      (p1 - (stack_deallocate σ2 p2).base - stackHeaderSize) = some ⟨s1, adj1, 0⟩ := by
    rw [hkey1, hmem3, hmem2]
    have hne : adj1 ≠ adj1 + stackHeaderSize + s1 + adj2 := by
      rw [stackHeaderSize]
      omega
    have hne2 : (adj1 == adj1 + stackHeaderSize + s1 + adj2) = false :=
      beq_eq_false_iff_ne.mpr hne
    simp [List.lookup, hne2]
  have he1 : (p1 - (stack_deallocate σ2 p2).base) + s1
      = (stack_deallocate σ2 p2).m_current_offset := by
    rw [hb3, hb2, hp1, hc3]
    omega
  have hp1ne : p1 ≠ 0 := by
    rw [hp1, stackHeaderSize]
    omega
  obtain ⟨hc4, hpr4i, -, -, -⟩ :=
    stack_deallocate_pop_fields hp1ne hm3ok hl1 he1
  rw [hpr3] at hc4 hpr4i
  refine ⟨hc4, ?_⟩
  rw [hpr4i]
  norm_num

/-- C5, witness: Stack(1024, align 16, base 16), two allocations of
8 bytes at alignment 16 land at 40 and 72; popping 72 then 40 returns
both offsets to 0. -/
theorem stack_lifo_witness :
    (stack_deallocate (stack_deallocate
        (stack_allocate (stack_allocate (stack_init 1024 16 16 true) 8 16).2 8 16).2 72) 40).m_current_offset = 0 ∧
    (stack_deallocate (stack_deallocate
        (stack_allocate (stack_allocate (stack_init 1024 16 16 true) 8 16).2 8 16).2 72) 40).m_previous_offset = 0 :=
  stack_lifo 1024 16 16 8 16 8 16 40 72
    (stack_allocate (stack_init 1024 16 16 true) 8 16).2
    (stack_allocate (stack_allocate (stack_init 1024 16 16 true) 8 16).2 8 16).2
    (by decide) (by decide)

/-- C6: deallocate on a non-null owned stack address whose implied end
offset (ptr − base + header.size) differs from current_offset is a
silent no-op: the entire state (offsets, backing memory, statistics,
history) is returned unchanged. -/
theorem stack_out_of_order_dealloc_noop (σ : StackAllocator) (p : Nat)
    (hdr : StackHeader) (hown : stack_owns σ p = true)
    (hl : σ.mem.lookup (p - σ.base - stackHeaderSize) = some hdr)
    (hne : (p - σ.base) + hdr.size ≠ σ.m_current_offset) :
    stack_deallocate σ p = σ := by
  have hmok : σ.mem_ok = true := by
    simp only [stack_owns, Bool.and_eq_true] at hown
    exact hown.1.1.1
  have hpne : p ≠ 0 := by
    simp only [stack_owns, Bool.and_eq_true, decide_eq_true_eq] at hown
    exact hown.1.1.2
  simp only [stack_deallocate, hmok]
  rw [if_neg (by simp [hpne])]
  rw [hl]
  simp [hne]

/-- C6, witness: after two allocations (pointers 40 and 72),
deallocating the first (40, not the top) leaves the state unchanged. -/
theorem stack_out_of_order_dealloc_noop_witness :
    stack_owns (stack_allocate (stack_allocate (stack_init 1024 16 16 true) 8 16).2 8 16).2 40 = true ∧
    stack_deallocate (stack_allocate (stack_allocate (stack_init 1024 16 16 true) 8 16).2 8 16).2 40
      = (stack_allocate (stack_allocate (stack_init 1024 16 16 true) 8 16).2 8 16).2 :=
  ⟨by decide,
   stack_out_of_order_dealloc_noop
     (stack_allocate (stack_allocate (stack_init 1024 16 16 true) 8 16).2 8 16).2 40
     ⟨8, 0, 0⟩ (by decide) (by decide) (by decide)⟩

/-! ## Claim C9: the statistics reducer -/

theorem getLastD_mem (l : List ℚ) : ∀ (d : ℚ), l ≠ [] → l.getLastD d ∈ l := by
  induction l with
  | nil => intro d h; contradiction
  | cons a t ih =>
    intro d h
    cases t with
    | nil => simp
    | cons b t2 =>
      rw [List.getLastD_cons]
      have := ih a (by simp)
      exact List.mem_cons_of_mem a this

theorem sorted_head_le (l : List ℚ) (hs : l.Sorted (· ≤ ·)) :
    ∀ x ∈ l, l.headI ≤ x := by
  cases l with
  | nil => intro x hx; cases hx
  | cons a t =>
    intro x hx
    rw [List.sorted_cons] at hs
    rcases List.mem_cons.mp hx with rfl | hxt
    · exact le_refl x
    · exact hs.1 x hxt

theorem sorted_le_getLastD (l : List ℚ) (hs : l.Sorted (· ≤ ·)) :
    ∀ (d : ℚ), ∀ x ∈ l, x ≤ l.getLastD d := by
  induction l with
  | nil => intro d x hx; cases hx
  | cons a t ih =>
    intro d x hx
    rw [List.sorted_cons] at hs
    rw [List.getLastD_cons]
    cases t with
    | nil =>
      rcases List.mem_cons.mp hx with rfl | hxt
      · simp
      · cases hxt
    | cons b t2 =>
      rcases List.mem_cons.mp hx with rfl | hxt
      · exact hs.1 _ (getLastD_mem (b :: t2) x (by simp))
      · exact ih hs.2 a x hxt

theorem headI_mem_of_ne_nil (l : List ℚ) (h : l ≠ []) : l.headI ∈ l := by
  cases l with
  | nil => contradiction
  | cons a t => simp

/-- C9: Statistics::analyze returns the all-zero record on the empty
vector; on [1,2,3,4,5] it returns mean 3, median 3, min 1, max 5,
variance 2 (std_dev = sqrt 2 ~ 1.4142), p95 = p99 = 5 (sorted samples at
indices floor(5*0.95) = floor(5*0.99) = 4) and sample_count 5; and on
every non-empty vector min and max are the least and greatest sample
(the sorted endpoints) and mean is the arithmetic mean. -/
theorem statistics_analyze (l : List ℚ) (h : l ≠ []) :
    analyze [] = {} ∧
    analyze [1, 2, 3, 4, 5] = ⟨3, 3, 2, 1, 5, 5, 5, 5⟩ ∧
    (analyze [1, 2, 3, 4, 5]).std_dev = Real.sqrt 2 ∧
    ((1.4142 : ℝ) < (analyze [1, 2, 3, 4, 5]).std_dev ∧
      (analyze [1, 2, 3, 4, 5]).std_dev < 1.4143) ∧
    (analyze l).sample_count = l.length ∧
    (analyze l).mean = l.sum / l.length ∧
    (analyze l).min ∈ l ∧ (∀ x ∈ l, (analyze l).min ≤ x) ∧
    (analyze l).max ∈ l ∧ (∀ x ∈ l, x ≤ (analyze l).max) := by
  have hsort : List.insertionSort (· ≤ ·) ([1, 2, 3, 4, 5] : List ℚ) = [1, 2, 3, 4, 5] := by
    norm_num [List.insertionSort, List.orderedInsert]
  have hfloor95 : Nat.floor ((19 / 4 : ℚ)) = 4 := by
    rw [Nat.floor_eq_iff (by norm_num)]
    norm_num
  have hfloor99 : Nat.floor ((99 / 20 : ℚ)) = 4 := by
    rw [Nat.floor_eq_iff (by norm_num)]
    norm_num
  have hA : analyze [1, 2, 3, 4, 5] = ⟨3, 3, 2, 1, 5, 5, 5, 5⟩ := by
    rw [analyze, if_neg (by simp)]
    simp only [hsort]
    norm_num [hfloor95, hfloor99]
  have hsd : (analyze [1, 2, 3, 4, 5]).std_dev = Real.sqrt 2 := by
    rw [BenchmarkResult.std_dev, hA]
    norm_num
  have hperm := List.perm_insertionSort (fun x1 x2 : ℚ => x1 ≤ x2) l
  have hsorted := List.sorted_insertionSort (fun x1 x2 : ℚ => x1 ≤ x2) l
  have hne : List.insertionSort (· ≤ ·) l ≠ [] := by
    intro hc
    exact h ((hc ▸ hperm).symm.eq_nil)
  have hmin : (analyze l).min = (List.insertionSort (· ≤ ·) l).headI := by
    simp [analyze, h]
  have hmax : (analyze l).max = (List.insertionSort (· ≤ ·) l).getLastD 0 := by
    simp [analyze, h]
  refine ⟨rfl, hA, hsd, ⟨?_, ?_⟩, ?_, ?_, ?_, ?_, ?_, ?_⟩
  · rw [hsd, show (1.4142 : ℝ) = 14142 / 10000 from by norm_num]
    rw [Real.lt_sqrt (by norm_num)]
    norm_num
  · rw [hsd, show (1.4143 : ℝ) = 14143 / 10000 from by norm_num]
    rw [Real.sqrt_lt' (by norm_num)]
    norm_num
  · simp [analyze, h]
  · have hsum : (List.insertionSort (· ≤ ·) l).sum = l.sum := hperm.sum_eq
    have hlen : (List.insertionSort (· ≤ ·) l).length = l.length := hperm.length_eq
    simp [analyze, h, hsum, hlen]
  · rw [hmin]
    exact hperm.mem_iff.mp (headI_mem_of_ne_nil _ hne)
  · intro x hx
    rw [hmin]
    exact sorted_head_le _ hsorted x (hperm.mem_iff.mpr hx)
  · rw [hmax]
    exact hperm.mem_iff.mp (getLastD_mem _ 0 hne)
  · intro x hx
    rw [hmax]
    exact sorted_le_getLastD _ hsorted 0 x (hperm.mem_iff.mpr hx)

/-- C9, witness at the vector [2]. -/
theorem statistics_analyze_witness :
    ([(2 : ℚ)] ≠ []) ∧
    (analyze [(2 : ℚ)]).sample_count = [(2 : ℚ)].length ∧
    (analyze [(2 : ℚ)]).min ∈ [(2 : ℚ)] :=
  ⟨by decide, (statistics_analyze [2] (by decide)).2.2.2.2.1,
    (statistics_analyze [2] (by decide)).2.2.2.2.2.2.1⟩
